import Mathlib

/- Verification of the balance and period-accounting logic of the
Personal Finance Tracker (two App variants: a Google-Sheets-backed one in
src/App.tsx and a local-storage one).  Transactions are embedded with exact
rational amounts; calendar dates are embedded at day granularity as a pair
(monthIndex, day) where monthIndex = year * 12 + (month - 1), matching the
month arithmetic of the JS Date constructor, and comparing two valid dates
lexicographically by (monthIndex, day) agrees with comparing their JS
timestamps. -/

namespace FinanceTracker

/-- Transaction type enum (INCOME, EXPENSE, TRANSFER) from types.ts. -/
inductive TransactionType where
  | INCOME
  | EXPENSE
  | TRANSFER
deriving DecidableEq, Repr

/-- Transaction source enum (GENERAL, PROVISION) from types.ts. -/
inductive TransactionSource where
  | GENERAL
  | PROVISION
deriving DecidableEq, Repr

/-- A calendar date at day granularity: monthIndex = year * 12 + (month - 1),
day = day of month. -/
structure DateD where
  monthIndex : Int
  day : Int
deriving DecidableEq, Repr

/-- Date order: the embedding of comparing JS Date timestamps of two valid
calendar dates (lexicographic on month index, then day). -/
def DateD.le (a b : DateD) : Prop :=
  a.monthIndex < b.monthIndex ∨ (a.monthIndex = b.monthIndex ∧ a.day ≤ b.day)

/-- Strict date order, the embedding of a strict JS timestamp comparison. -/
def DateD.lt (a b : DateD) : Prop :=
  a.monthIndex < b.monthIndex ∨ (a.monthIndex = b.monthIndex ∧ a.day < b.day)

instance (a b : DateD) : Decidable (DateD.le a b) := by
  unfold DateD.le; infer_instance

instance (a b : DateD) : Decidable (DateD.lt a b) := by
  unfold DateD.lt; infer_instance

/-- A transaction record from types.ts (rowIndex, a sheet bookkeeping field,
is omitted: no accounting computation reads it). -/
structure Transaction where
  id : String
  date : DateD
  description : String
  amount : ℚ
  type : TransactionType
  source : TransactionSource
  destination : Option TransactionSource
deriving DecidableEq, Repr

namespace SheetsApp

/-- One step of the `balances` useMemo fold of src/App.tsx (the switch on
tx.type, lines 488-508): state is the pair (general, provision). -/
def balancesStep (s : ℚ × ℚ) (tx : Transaction) : ℚ × ℚ :=
  match tx.type with
  | .INCOME =>
    if tx.source = .GENERAL then (s.1 + tx.amount, s.2)
    else if tx.source = .PROVISION then (s.1, s.2 + tx.amount)
    else s
  | .EXPENSE =>
    if tx.source = .GENERAL then (s.1 - tx.amount, s.2)
    else if tx.source = .PROVISION then (s.1, s.2 - tx.amount)
    else s
  | .TRANSFER =>
    if tx.source = .GENERAL ∧ tx.destination = some .PROVISION then
      (s.1 - tx.amount, s.2 + tx.amount)
    else if tx.source = .PROVISION ∧ tx.destination = some .GENERAL then
      (s.1 + tx.amount, s.2 - tx.amount)
    else s

/-- The `balances` computation of src/App.tsx: fold the transaction list
over `balancesStep` starting from the parsed initial balances. -/
def balances (initialGeneral initialProvision : ℚ) (txs : List Transaction) :
    ℚ × ℚ :=
  txs.foldl balancesStep (initialGeneral, initialProvision)

end SheetsApp

/-- The transfer-routing fold step exactly as the specification words it:
INCOME adds its amount to its source bucket, EXPENSE subtracts its amount
from its source bucket, a TRANSFER from general to provision moves the
amount from general to provision, a TRANSFER from provision to general does
the reverse, and any other TRANSFER leaves both buckets unchanged. -/
def specRouteStep (s : ℚ × ℚ) (tx : Transaction) : ℚ × ℚ :=
  match tx.type with
  | .INCOME =>
    match tx.source with
    | .GENERAL => (s.1 + tx.amount, s.2)
    | .PROVISION => (s.1, s.2 + tx.amount)
  | .EXPENSE =>
    match tx.source with
    | .GENERAL => (s.1 - tx.amount, s.2)
    | .PROVISION => (s.1, s.2 - tx.amount)
  | .TRANSFER =>
    match tx.source, tx.destination with
    | .GENERAL, some .PROVISION => (s.1 - tx.amount, s.2 + tx.amount)
    | .PROVISION, some .GENERAL => (s.1 + tx.amount, s.2 - tx.amount)
    | _, _ => s

lemma balancesStep_eq_specRouteStep : SheetsApp.balancesStep = specRouteStep := by
  funext s tx
  obtain ⟨i, d, ds, a, ty, src, dst⟩ := tx
  cases ty <;> cases src <;>
    simp [SheetsApp.balancesStep, specRouteStep] <;>
    rcases dst with _ | ⟨_ | _⟩ <;> simp

/-- Per-transaction change to the general balance in the Sheets fold
(closed form of balancesStep, used to reason about the fold as a sum). -/
def sheetsDeltaG (tx : Transaction) : ℚ :=
  match tx.type with
  | .INCOME => if tx.source = .GENERAL then tx.amount else 0
  | .EXPENSE => if tx.source = .GENERAL then -tx.amount else 0
  | .TRANSFER =>
    if tx.source = .GENERAL ∧ tx.destination = some .PROVISION then -tx.amount
    else if tx.source = .PROVISION ∧ tx.destination = some .GENERAL then tx.amount
    else 0

/-- Per-transaction change to the provision balance in the Sheets fold. -/
def sheetsDeltaP (tx : Transaction) : ℚ :=
  match tx.type with
  | .INCOME => if tx.source = .PROVISION then tx.amount else 0
  | .EXPENSE => if tx.source = .PROVISION then -tx.amount else 0
  | .TRANSFER =>
    if tx.source = .GENERAL ∧ tx.destination = some .PROVISION then tx.amount
    else if tx.source = .PROVISION ∧ tx.destination = some .GENERAL then -tx.amount
    else 0

lemma balancesStep_closed (s : ℚ × ℚ) (tx : Transaction) :
    SheetsApp.balancesStep s tx = (s.1 + sheetsDeltaG tx, s.2 + sheetsDeltaP tx) := by
  obtain ⟨i, d, ds, a, ty, src, dst⟩ := tx
  cases ty <;> cases src <;> rcases dst with _ | ⟨_ | _⟩ <;>
    simp [SheetsApp.balancesStep, sheetsDeltaG, sheetsDeltaP, sub_eq_add_neg]

lemma balances_closed (g p : ℚ) (txs : List Transaction) :
    SheetsApp.balances g p txs =
      (g + (txs.map sheetsDeltaG).sum, p + (txs.map sheetsDeltaP).sum) := by
  unfold SheetsApp.balances
  induction txs generalizing g p with
  | nil => simp
  | cons tx rest ih =>
    simp only [List.foldl_cons, List.map_cons, List.sum_cons, balancesStep_closed]
    rw [ih]
    simp only [Prod.mk.injEq]
    constructor <;> ring

/-- Claim C1: for every transaction list and every pair of initial balances,
the `balances` computation of the Sheets-backed App equals the left fold of
the fixed transfer-routing rule (INCOME adds to its source bucket, EXPENSE
subtracts from its source bucket, TRANSFER general-to-provision moves the
amount across, provision-to-general does the reverse, any other TRANSFER is
a no-op). -/
theorem claim_C1_balances_is_routing_fold (g p : ℚ) (txs : List Transaction) :
    SheetsApp.balances g p txs = txs.foldl specRouteStep (g, p) := by
  unfold SheetsApp.balances
  rw [balancesStep_eq_specRouteStep]

namespace LocalApp

/-- One step of the `balances` useMemo fold of the local-storage App
variant: state is (totalIncome, totalExpense, provisionBalance). -/
def balancesStep (st : ℚ × ℚ × ℚ) (tx : Transaction) : ℚ × ℚ × ℚ :=
  match tx.type with
  | .INCOME => (st.1 + tx.amount, st.2.1, st.2.2)
  | .EXPENSE =>
    (st.1, st.2.1 + tx.amount,
      if tx.source = .PROVISION then st.2.2 - tx.amount else st.2.2)
  | .TRANSFER =>
    if tx.destination = some .PROVISION then (st.1, st.2.1, st.2.2 + tx.amount)
    else st

/-- The `balances` computation of the local-storage App variant:
totalBalance = totalIncome - totalExpense, general = totalBalance minus the
provision balance. -/
def balances (txs : List Transaction) : ℚ × ℚ :=
  let st := txs.foldl balancesStep (0, 0, 0)
  let totalBalance := st.1 - st.2.1
  (totalBalance - st.2.2, st.2.2)

end LocalApp

/-- Per-transaction change to totalIncome in the local-storage fold. -/
def localDeltaI (tx : Transaction) : ℚ :=
  if tx.type = .INCOME then tx.amount else 0

/-- Per-transaction change to totalExpense in the local-storage fold. -/
def localDeltaE (tx : Transaction) : ℚ :=
  if tx.type = .EXPENSE then tx.amount else 0

/-- Per-transaction change to provisionBalance in the local-storage fold. -/
def localDeltaV (tx : Transaction) : ℚ :=
  match tx.type with
  | .INCOME => 0
  | .EXPENSE => if tx.source = .PROVISION then -tx.amount else 0
  | .TRANSFER => if tx.destination = some .PROVISION then tx.amount else 0

lemma localStep_closed (st : ℚ × ℚ × ℚ) (tx : Transaction) :
    LocalApp.balancesStep st tx =
      (st.1 + localDeltaI tx, st.2.1 + localDeltaE tx, st.2.2 + localDeltaV tx) := by
  obtain ⟨i, d, ds, a, ty, src, dst⟩ := tx
  cases ty <;> cases src <;> rcases dst with _ | ⟨_ | _⟩ <;>
    simp [LocalApp.balancesStep, localDeltaI, localDeltaE, localDeltaV, sub_eq_add_neg]

lemma localFold_closed (st : ℚ × ℚ × ℚ) (txs : List Transaction) :
    txs.foldl LocalApp.balancesStep st =
      (st.1 + (txs.map localDeltaI).sum, st.2.1 + (txs.map localDeltaE).sum,
        st.2.2 + (txs.map localDeltaV).sum) := by
  induction txs generalizing st with
  | nil => simp
  | cons tx rest ih =>
    simp only [List.foldl_cons, List.map_cons, List.sum_cons, localStep_closed]
    rw [ih]
    simp only [Prod.mk.injEq]
    refine ⟨by ring, by ring, by ring⟩

lemma localBalances_closed (txs : List Transaction) :
    LocalApp.balances txs =
      ((txs.map localDeltaI).sum - (txs.map localDeltaE).sum -
        (txs.map localDeltaV).sum, (txs.map localDeltaV).sum) := by
  unfold LocalApp.balances
  rw [localFold_closed]
  simp

/-- Concrete input refuting claim C2: an INCOME transaction credited to the
provision bucket. -/
def c2CounterTx : Transaction :=
  { id := "txn-c2", date := ⟨24300, 5⟩, description := "bonus to provision fund",
    amount := 100, type := .INCOME, source := .PROVISION, destination := none }

/-- Claim C2 counterexample: on a list holding a single INCOME transaction
whose source is the provision bucket, the local-storage `balances` credits
the amount to the general balance while the Sheets `balances` (with zero
initial balances) credits it to the provision balance, so the two variants
disagree. -/
theorem claim_C2_counterexample :
    LocalApp.balances [c2CounterTx] ≠ SheetsApp.balances 0 0 [c2CounterTx] := by
  rw [localBalances_closed, balances_closed]
  simp [c2CounterTx, localDeltaI, localDeltaE, localDeltaV, sheetsDeltaG, sheetsDeltaP]

lemma c2_pointwise (tx : Transaction)
    (h1 : tx.type = .INCOME → tx.source = .GENERAL)
    (h2 : tx.type = .TRANSFER → tx.source = .GENERAL) :
    sheetsDeltaG tx = localDeltaI tx - localDeltaE tx - localDeltaV tx ∧
      sheetsDeltaP tx = localDeltaV tx := by
  obtain ⟨i, d, ds, a, ty, src, dst⟩ := tx
  cases ty <;> cases src <;> rcases dst with _ | ⟨_ | _⟩ <;>
    simp_all [sheetsDeltaG, sheetsDeltaP, localDeltaI, localDeltaE, localDeltaV]

lemma sum_map_sub {α : Type} (f g : α → ℚ) (l : List α) :
    (l.map fun x => f x - g x).sum = (l.map f).sum - (l.map g).sum := by
  induction l with
  | nil => simp
  | cons x rest ih => simp only [List.map_cons, List.sum_cons, ih]; ring

/-- Claim C2, amended: the two App variants compute the same balances (with
zero initial balances on the Sheets side) for the transaction lists in which
every INCOME transaction is credited to the general bucket and every
TRANSFER originates from the general bucket; the claim's inclusion of
income credited to the provision bucket, and of transfers from provision to
general, is refuted by the counterexample. -/
theorem claim_C2_amended (txs : List Transaction)
    (h : ∀ tx ∈ txs, (tx.type = .INCOME → tx.source = .GENERAL) ∧
      (tx.type = .TRANSFER → tx.source = .GENERAL)) :
    LocalApp.balances txs = SheetsApp.balances 0 0 txs := by
  rw [localBalances_closed, balances_closed]
  have hG : txs.map sheetsDeltaG =
      txs.map fun tx => localDeltaI tx - localDeltaE tx - localDeltaV tx :=
    List.map_congr_left fun tx htx => (c2_pointwise tx (h tx htx).1 (h tx htx).2).1
  have hP : txs.map sheetsDeltaP = txs.map localDeltaV :=
    List.map_congr_left fun tx htx => (c2_pointwise tx (h tx htx).1 (h tx htx).2).2
  rw [hG, hP]
  have hsub : (txs.map fun tx => localDeltaI tx - localDeltaE tx - localDeltaV tx).sum =
      (txs.map localDeltaI).sum - (txs.map localDeltaE).sum -
        (txs.map localDeltaV).sum := by
    have h1 := sum_map_sub (fun tx => localDeltaI tx - localDeltaE tx) localDeltaV txs
    have h2 := sum_map_sub localDeltaI localDeltaE txs
    simp only [h1, h2]
  rw [hsub]
  simp

/-- Concrete list for the claim C2 witness: general income, a transfer from
general to provision, and a provision expense. -/
def c2WitnessList : List Transaction :=
  [{ id := "w1", date := ⟨24300, 1⟩, description := "salary", amount := 10,
     type := .INCOME, source := .GENERAL, destination := none },
   { id := "w2", date := ⟨24300, 2⟩, description := "move to fund", amount := 3,
     type := .TRANSFER, source := .GENERAL, destination := some .PROVISION },
   { id := "w3", date := ⟨24300, 3⟩, description := "repair bill", amount := 2,
     type := .EXPENSE, source := .PROVISION, destination := none }]

theorem claim_C2_witness :
    (∀ tx ∈ c2WitnessList, (tx.type = .INCOME → tx.source = .GENERAL) ∧
      (tx.type = .TRANSFER → tx.source = .GENERAL)) ∧
    LocalApp.balances c2WitnessList = SheetsApp.balances 0 0 c2WitnessList :=
  ⟨by decide, claim_C2_amended c2WitnessList (by decide)⟩

/-- Total of all INCOME amounts in a transaction list. -/
def incomeTotal (txs : List Transaction) : ℚ :=
  ((txs.filter fun tx => decide (tx.type = TransactionType.INCOME)).map
    Transaction.amount).sum

/-- Total of all EXPENSE amounts in a transaction list. -/
def expenseTotal (txs : List Transaction) : ℚ :=
  ((txs.filter fun tx => decide (tx.type = TransactionType.EXPENSE)).map
    Transaction.amount).sum

lemma incomeTotal_eq_sum (txs : List Transaction) :
    incomeTotal txs = (txs.map localDeltaI).sum := by
  induction txs with
  | nil => rfl
  | cons tx rest ih =>
    by_cases h : tx.type = TransactionType.INCOME <;>
      simp [incomeTotal, List.filter_cons, h, localDeltaI, ih.symm, incomeTotal]

lemma expenseTotal_eq_sum (txs : List Transaction) :
    expenseTotal txs = (txs.map localDeltaE).sum := by
  induction txs with
  | nil => rfl
  | cons tx rest ih =>
    by_cases h : tx.type = TransactionType.EXPENSE <;>
      simp [expenseTotal, List.filter_cons, h, localDeltaE, ih.symm, expenseTotal]

lemma c6_pointwise (tx : Transaction) :
    sheetsDeltaG tx + sheetsDeltaP tx = localDeltaI tx - localDeltaE tx := by
  obtain ⟨i, d, ds, a, ty, src, dst⟩ := tx
  cases ty <;> cases src <;> rcases dst with _ | ⟨_ | _⟩ <;>
    simp [sheetsDeltaG, sheetsDeltaP, localDeltaI, localDeltaE]

lemma sheets_sum_balances (g p : ℚ) (txs : List Transaction) :
    (SheetsApp.balances g p txs).1 + (SheetsApp.balances g p txs).2 =
      g + p + incomeTotal txs - expenseTotal txs := by
  rw [balances_closed, incomeTotal_eq_sum, expenseTotal_eq_sum]
  have h : (txs.map sheetsDeltaG).sum + (txs.map sheetsDeltaP).sum =
      (txs.map localDeltaI).sum - (txs.map localDeltaE).sum := by
    rw [← sum_map_sub]
    induction txs with
    | nil => simp
    | cons tx rest ih =>
      simp only [List.map_cons, List.sum_cons, ← c6_pointwise tx]
      rw [← ih]
      ring
  simp only []
  linarith [h]

lemma local_sum_balances (txs : List Transaction) :
    (LocalApp.balances txs).1 + (LocalApp.balances txs).2 =
      incomeTotal txs - expenseTotal txs := by
  rw [localBalances_closed, incomeTotal_eq_sum, expenseTotal_eq_sum]
  simp only []
  ring

/-- Claim C6: conservation invariant. In both App variants the sum of the
general and provision balances equals the sum of the initial balances (zero
for the local-storage variant) plus total INCOME minus total EXPENSE, and
appending a TRANSFER transaction never changes the combined total of the
two buckets. -/
theorem claim_C6_conservation (g p : ℚ) (txs : List Transaction) :
    ((SheetsApp.balances g p txs).1 + (SheetsApp.balances g p txs).2 =
      g + p + incomeTotal txs - expenseTotal txs) ∧
    ((LocalApp.balances txs).1 + (LocalApp.balances txs).2 =
      incomeTotal txs - expenseTotal txs) ∧
    (∀ tx : Transaction, tx.type = TransactionType.TRANSFER →
      ((SheetsApp.balances g p (txs ++ [tx])).1 +
          (SheetsApp.balances g p (txs ++ [tx])).2 =
        (SheetsApp.balances g p txs).1 + (SheetsApp.balances g p txs).2) ∧
      ((LocalApp.balances (txs ++ [tx])).1 + (LocalApp.balances (txs ++ [tx])).2 =
        (LocalApp.balances txs).1 + (LocalApp.balances txs).2)) := by
  refine ⟨sheets_sum_balances g p txs, local_sum_balances txs, fun tx htx => ?_⟩
  have hinc : incomeTotal (txs ++ [tx]) = incomeTotal txs := by
    simp [incomeTotal, List.filter_append, htx]
  have hexp : expenseTotal (txs ++ [tx]) = expenseTotal txs := by
    simp [expenseTotal, List.filter_append, htx]
  constructor
  · rw [sheets_sum_balances, sheets_sum_balances, hinc, hexp]
  · rw [local_sum_balances, local_sum_balances, hinc, hexp]

/-- Concrete transfer transaction for the claim C6 witness. -/
def c6TransferTx : Transaction :=
  { id := "w6", date := ⟨24300, 4⟩, description := "to the fund", amount := 8,
    type := .TRANSFER, source := .GENERAL, destination := some .PROVISION }

theorem claim_C6_witness :
    (SheetsApp.balances 5 7 (c2WitnessList ++ [c6TransferTx])).1 +
        (SheetsApp.balances 5 7 (c2WitnessList ++ [c6TransferTx])).2 =
      (SheetsApp.balances 5 7 c2WitnessList).1 +
        (SheetsApp.balances 5 7 c2WitnessList).2 :=
  (((claim_C6_conservation 5 7 c2WitnessList).2.2 c6TransferTx) rfl).1

/-- Result record of the currentMonthStats useMemo of src/App.tsx. -/
structure MonthStats where
  remaining : ℚ
  totalUsed : ℚ
  progress : ℚ
deriving DecidableEq, Repr

/-- The currentMonthStats useMemo of src/App.tsx (lines 513-547): pick the
semi-monthly window around the 15th, sum expenses and transfers out of the
general bucket inside it, and derive remaining and progress from the goal. -/
def currentMonthStats (goal : ℚ) (today : DateD) (txs : List Transaction) :
    MonthStats :=
  let startD : DateD :=
    if today.day < 15 then ⟨today.monthIndex - 1, 15⟩ else ⟨today.monthIndex, 15⟩
  let endD : DateD :=
    if today.day < 15 then ⟨today.monthIndex, 15⟩ else ⟨today.monthIndex + 1, 15⟩
  let period := txs.filter fun tx =>
    decide (DateD.le startD tx.date ∧ DateD.lt tx.date endD)
  let spent := ((period.filter fun tx =>
    decide (tx.type = TransactionType.EXPENSE)).map Transaction.amount).sum
  let transferOut := ((period.filter fun tx =>
    decide (tx.type = TransactionType.TRANSFER ∧
      tx.source = TransactionSource.GENERAL)).map Transaction.amount).sum
  let totalUsed := spent + transferOut
  let remaining := if 0 < goal then goal - totalUsed else 0
  let progress := if 0 < goal then totalUsed / goal * 100 else 0
  ⟨remaining, totalUsed, min progress 100⟩

/-- Start of the semi-monthly progress window as the specification words it:
the 15th of the previous month when the day of month is below 15, the 15th
of the current month otherwise. -/
def specWindowStart (today : DateD) : DateD :=
  if today.day < 15 then ⟨today.monthIndex - 1, 15⟩ else ⟨today.monthIndex, 15⟩

/-- End (exclusive) of the semi-monthly progress window as the
specification words it: the 15th of the current month when the day of month
is below 15, the 15th of the next month otherwise. -/
def specWindowEnd (today : DateD) : DateD :=
  if today.day < 15 then ⟨today.monthIndex, 15⟩ else ⟨today.monthIndex + 1, 15⟩

/-- Membership of a transaction in the half-open progress window. -/
def inWindow (today : DateD) (tx : Transaction) : Prop :=
  DateD.le (specWindowStart today) tx.date ∧ DateD.lt tx.date (specWindowEnd today)

instance (today : DateD) (tx : Transaction) : Decidable (inWindow today tx) := by
  unfold inWindow; infer_instance

/-- totalUsed as the specification words it: the sum of all EXPENSE amounts
in the window plus all TRANSFER amounts in the window whose source is the
general bucket. -/
def specTotalUsed (today : DateD) (txs : List Transaction) : ℚ :=
  ((txs.filter fun tx =>
    decide (tx.type = TransactionType.EXPENSE ∧ inWindow today tx)).map
      Transaction.amount).sum +
  ((txs.filter fun tx =>
    decide (tx.type = TransactionType.TRANSFER ∧
      tx.source = TransactionSource.GENERAL ∧ inWindow today tx)).map
      Transaction.amount).sum

lemma filter_filter_decide (p q : Transaction → Prop) [DecidablePred p]
    [DecidablePred q] (l : List Transaction) :
    (l.filter fun tx => decide (p tx)).filter (fun tx => decide (q tx)) =
      l.filter fun tx => decide (q tx ∧ p tx) := by
  induction l with
  | nil => rfl
  | cons tx rest ih =>
    by_cases hp : p tx <;> by_cases hq : q tx <;>
      simp [List.filter_cons, hp, hq, ih]

lemma currentMonthStats_spec (goal : ℚ) (today : DateD) (txs : List Transaction) :
    currentMonthStats goal today txs =
      ⟨if 0 < goal then goal - specTotalUsed today txs else 0,
       specTotalUsed today txs,
       if 0 < goal then min 100 (100 * specTotalUsed today txs / goal) else 0⟩ := by
  unfold currentMonthStats specTotalUsed
  dsimp only
  rw [show (if today.day < 15 then (⟨today.monthIndex - 1, 15⟩ : DateD)
      else ⟨today.monthIndex, 15⟩) = specWindowStart today from rfl,
    show (if today.day < 15 then (⟨today.monthIndex, 15⟩ : DateD)
      else ⟨today.monthIndex + 1, 15⟩) = specWindowEnd today from rfl]
  have hfe : ((txs.filter fun tx =>
        decide (DateD.le (specWindowStart today) tx.date ∧
          DateD.lt tx.date (specWindowEnd today))).filter fun tx =>
        decide (tx.type = TransactionType.EXPENSE)) =
      txs.filter fun tx =>
        decide (tx.type = TransactionType.EXPENSE ∧ inWindow today tx) := by
    rw [filter_filter_decide (fun tx => DateD.le (specWindowStart today) tx.date ∧
          DateD.lt tx.date (specWindowEnd today))
        (fun tx => tx.type = TransactionType.EXPENSE) txs]
    apply List.filter_congr
    intro tx _
    simp only [decide_eq_decide]
    unfold inWindow
    tauto
  have hft : ((txs.filter fun tx =>
        decide (DateD.le (specWindowStart today) tx.date ∧
          DateD.lt tx.date (specWindowEnd today))).filter fun tx =>
        decide (tx.type = TransactionType.TRANSFER ∧
          tx.source = TransactionSource.GENERAL)) =
      txs.filter fun tx =>
        decide (tx.type = TransactionType.TRANSFER ∧
          tx.source = TransactionSource.GENERAL ∧ inWindow today tx) := by
    rw [filter_filter_decide (fun tx => DateD.le (specWindowStart today) tx.date ∧
          DateD.lt tx.date (specWindowEnd today))
        (fun tx => tx.type = TransactionType.TRANSFER ∧
          tx.source = TransactionSource.GENERAL) txs]
    apply List.filter_congr
    intro tx _
    simp only [decide_eq_decide]
    unfold inWindow
    tauto
  rw [hfe, hft]
  simp only [MonthStats.mk.injEq]
  refine ⟨trivial, trivial, ?_⟩
  by_cases hg : 0 < goal
  · simp only [if_pos hg]
    rw [min_comm]
    congr 1
    ring
  · simp only [if_neg hg]
    exact min_eq_left (by norm_num)

/-- Claim C4: `currentMonthStats` uses the window [15th of previous month,
15th of current month) when the day of month is below 15 and [15th of
current month, 15th of next month) otherwise; totalUsed is the windowed sum
of EXPENSE amounts plus TRANSFER amounts out of the general bucket;
remaining is goal - totalUsed for positive goal and 0 otherwise; progress is
min(100, 100 * totalUsed / goal) for positive goal and 0 otherwise, and lies
in [0, 100] for non-negative amounts. -/
theorem claim_C4_currentMonthStats (goal : ℚ) (today : DateD)
    (txs : List Transaction) (hpos : ∀ tx ∈ txs, 0 ≤ tx.amount) :
    currentMonthStats goal today txs =
      ⟨if 0 < goal then goal - specTotalUsed today txs else 0,
       specTotalUsed today txs,
       if 0 < goal then min 100 (100 * specTotalUsed today txs / goal) else 0⟩ ∧
    0 ≤ (currentMonthStats goal today txs).progress ∧
    (currentMonthStats goal today txs).progress ≤ 100 := by
  have hspec := currentMonthStats_spec goal today txs
  refine ⟨hspec, ?_, ?_⟩
  · rw [hspec]
    have hS : 0 ≤ specTotalUsed today txs := by
      unfold specTotalUsed
      have h1 : 0 ≤ ((txs.filter fun tx =>
          decide (tx.type = TransactionType.EXPENSE ∧ inWindow today tx)).map
            Transaction.amount).sum := by
        apply List.sum_nonneg
        intro x hx
        obtain ⟨tx, htx, rfl⟩ := List.mem_map.mp hx
        exact hpos tx (List.mem_of_mem_filter htx)
      have h2 : 0 ≤ ((txs.filter fun tx =>
          decide (tx.type = TransactionType.TRANSFER ∧
            tx.source = TransactionSource.GENERAL ∧ inWindow today tx)).map
            Transaction.amount).sum := by
        apply List.sum_nonneg
        intro x hx
        obtain ⟨tx, htx, rfl⟩ := List.mem_map.mp hx
        exact hpos tx (List.mem_of_mem_filter htx)
      linarith
    by_cases hg : 0 < goal
    · simp only [if_pos hg]
      exact le_min (by norm_num) (by positivity)
    · simp [if_neg hg]
  · rw [hspec]
    by_cases hg : 0 < goal
    · simp only [if_pos hg]
      exact min_le_left 100 _
    · simp [if_neg hg]

/-- Concrete list for the claim C4 witness. -/
def c4WitnessList : List Transaction :=
  [{ id := "w41", date := ⟨24300, 16⟩, description := "groceries", amount := 30,
     type := .EXPENSE, source := .GENERAL, destination := none },
   { id := "w42", date := ⟨24300, 17⟩, description := "to the fund", amount := 10,
     type := .TRANSFER, source := .GENERAL, destination := some .PROVISION },
   { id := "w43", date := ⟨24300, 2⟩, description := "salary", amount := 90,
     type := .INCOME, source := .GENERAL, destination := none }]

theorem claim_C4_witness :
    (∀ tx ∈ c4WitnessList, 0 ≤ tx.amount) ∧
    0 ≤ (currentMonthStats 50 ⟨24300, 20⟩ c4WitnessList).progress ∧
    (currentMonthStats 50 ⟨24300, 20⟩ c4WitnessList).progress ≤ 100 :=
  ⟨by decide,
    (claim_C4_currentMonthStats 50 ⟨24300, 20⟩ c4WitnessList (by decide)).2⟩

/-- Claim C7: `balances` and `currentMonthStats` are pure single-pass
reductions: as functions of the embedded inputs they give equal outputs on
equal inputs, and with exact rational arithmetic their results are
invariant under every permutation of the transaction list. -/
theorem claim_C7_permutation_invariance (g p goal : ℚ) (today : DateD)
    (l₁ l₂ : List Transaction) (h : l₁.Perm l₂) :
    SheetsApp.balances g p l₁ = SheetsApp.balances g p l₂ ∧
    currentMonthStats goal today l₁ = currentMonthStats goal today l₂ := by
  constructor
  · rw [balances_closed, balances_closed, (h.map sheetsDeltaG).sum_eq,
      (h.map sheetsDeltaP).sum_eq]
  · rw [currentMonthStats_spec, currentMonthStats_spec]
    have hS : specTotalUsed today l₁ = specTotalUsed today l₂ := by
      unfold specTotalUsed
      rw [((h.filter _).map Transaction.amount).sum_eq,
        ((h.filter _).map Transaction.amount).sum_eq]
    rw [hS]

theorem claim_C7_witness :
    SheetsApp.balances 1 2 (c2WitnessList ++ c4WitnessList) =
      SheetsApp.balances 1 2 (c4WitnessList ++ c2WitnessList) ∧
    currentMonthStats 50 ⟨24300, 20⟩ (c2WitnessList ++ c4WitnessList) =
      currentMonthStats 50 ⟨24300, 20⟩ (c4WitnessList ++ c2WitnessList) :=
  claim_C7_permutation_invariance 1 2 50 ⟨24300, 20⟩ _ _
    (List.perm_append_comm)

/-- State touched by the rollover useEffect of src/App.tsx: the two parsed
initial balances, the recorded last-rollover month (none embeds the empty
string), and whether the error banner is set. -/
structure RolloverState where
  initialGeneral : ℚ
  initialProvision : ℚ
  lastRolloverMonth : Option Int
  errorMsg : Bool
deriving DecidableEq, Repr

/-- Usage of the previous semi-monthly period as the rollover useEffect
computes it: expenses plus transfers out of the general bucket over
[15th of the previous month, 15th of the current month). -/
def prevPeriodUsed (today : DateD) (txs : List Transaction) : ℚ :=
  let startD : DateD := ⟨today.monthIndex - 1, 15⟩
  let endD : DateD := ⟨today.monthIndex, 15⟩
  let period := txs.filter fun tx =>
    decide (DateD.le startD tx.date ∧ DateD.lt tx.date endD)
  let spent := ((period.filter fun tx =>
    decide (tx.type = TransactionType.EXPENSE)).map Transaction.amount).sum
  let transferOut := ((period.filter fun tx =>
    decide (tx.type = TransactionType.TRANSFER ∧
      tx.source = TransactionSource.GENERAL)).map Transaction.amount).sum
  spent + transferOut

/-- The previous-period usage as the specification words it: the sum of all
EXPENSE amounts plus all TRANSFER amounts out of the general bucket over
the period [15th of the previous month, 15th of the current month). -/
def specPrevPeriodUsed (today : DateD) (txs : List Transaction) : ℚ :=
  ((txs.filter fun tx => decide (tx.type = TransactionType.EXPENSE ∧
      DateD.le ⟨today.monthIndex - 1, 15⟩ tx.date ∧
      DateD.lt tx.date ⟨today.monthIndex, 15⟩)).map Transaction.amount).sum +
  ((txs.filter fun tx => decide (tx.type = TransactionType.TRANSFER ∧
      tx.source = TransactionSource.GENERAL ∧
      DateD.le ⟨today.monthIndex - 1, 15⟩ tx.date ∧
      DateD.lt tx.date ⟨today.monthIndex, 15⟩)).map Transaction.amount).sum

lemma prevPeriodUsed_spec (today : DateD) (txs : List Transaction) :
    prevPeriodUsed today txs = specPrevPeriodUsed today txs := by
  unfold prevPeriodUsed specPrevPeriodUsed
  dsimp only
  have hfe : ((txs.filter fun tx =>
        decide (DateD.le ⟨today.monthIndex - 1, 15⟩ tx.date ∧
          DateD.lt tx.date ⟨today.monthIndex, 15⟩)).filter fun tx =>
        decide (tx.type = TransactionType.EXPENSE)) =
      txs.filter fun tx =>
        decide (tx.type = TransactionType.EXPENSE ∧
          DateD.le ⟨today.monthIndex - 1, 15⟩ tx.date ∧
          DateD.lt tx.date ⟨today.monthIndex, 15⟩) := by
    rw [filter_filter_decide (fun tx =>
          DateD.le ⟨today.monthIndex - 1, 15⟩ tx.date ∧
            DateD.lt tx.date ⟨today.monthIndex, 15⟩)
        (fun tx => tx.type = TransactionType.EXPENSE) txs]
  have hft : ((txs.filter fun tx =>
        decide (DateD.le ⟨today.monthIndex - 1, 15⟩ tx.date ∧
          DateD.lt tx.date ⟨today.monthIndex, 15⟩)).filter fun tx =>
        decide (tx.type = TransactionType.TRANSFER ∧
          tx.source = TransactionSource.GENERAL)) =
      txs.filter fun tx =>
        decide (tx.type = TransactionType.TRANSFER ∧
          tx.source = TransactionSource.GENERAL ∧
          DateD.le ⟨today.monthIndex - 1, 15⟩ tx.date ∧
          DateD.lt tx.date ⟨today.monthIndex, 15⟩) := by
    rw [filter_filter_decide (fun tx =>
          DateD.le ⟨today.monthIndex - 1, 15⟩ tx.date ∧
            DateD.lt tx.date ⟨today.monthIndex, 15⟩)
        (fun tx => tx.type = TransactionType.TRANSFER ∧
          tx.source = TransactionSource.GENERAL) txs]
    apply List.filter_congr
    intro tx _
    simp only [decide_eq_decide]
    tauto
  rw [hfe, hft]

/-- The rollover useEffect of src/App.tsx (lines 418-478), with the success
or failure of the spreadsheet write made explicit as writeOk: when the day
of month reaches 15 and the recorded rollover month differs from the
current month, the unused budget goal - prevPeriodUsed is computed; a
positive unused budget is added to the initial general balance and the
month is stamped together, both only after a successful write (a failed
write only sets the error banner); a non-positive unused budget stamps the
month on success and changes nothing on failure. -/
def rolloverEffect (writeOk : Bool) (today : DateD) (goal : ℚ)
    (txs : List Transaction) (s : RolloverState) : RolloverState :=
  if 15 ≤ today.day ∧ s.lastRolloverMonth ≠ some today.monthIndex then
    let rolloverAmount := goal - prevPeriodUsed today txs
    if 0 < rolloverAmount then
      if writeOk then
        { s with initialGeneral := s.initialGeneral + rolloverAmount,
                 lastRolloverMonth := some today.monthIndex }
      else { s with errorMsg := true }
    else
      if writeOk then { s with lastRolloverMonth := some today.monthIndex }
      else s
  else s

/-- Claim C5: the rollover fires only when the day of month is at least 15
and the recorded last-rollover month differs from the current month; the
unused budget is goal minus the previous period's expenses plus transfers
out of general; a strictly positive unused budget is added to the initial
general balance together with the month stamp, a non-positive one only
stamps the month; re-running in the same month is a no-op, so the rollover
runs at most once per calendar month. -/
theorem claim_C5_rollover (today : DateD) (goal : ℚ) (txs : List Transaction)
    (s : RolloverState) :
    (today.day < 15 ∨ s.lastRolloverMonth = some today.monthIndex →
      rolloverEffect true today goal txs s = s) ∧
    (15 ≤ today.day → s.lastRolloverMonth ≠ some today.monthIndex →
      (0 < goal - specPrevPeriodUsed today txs →
        rolloverEffect true today goal txs s =
          { s with
            initialGeneral :=
              s.initialGeneral + (goal - specPrevPeriodUsed today txs),
            lastRolloverMonth := some today.monthIndex }) ∧
      (goal - specPrevPeriodUsed today txs ≤ 0 →
        rolloverEffect true today goal txs s =
          { s with lastRolloverMonth := some today.monthIndex })) ∧
    rolloverEffect true today goal txs (rolloverEffect true today goal txs s) =
      rolloverEffect true today goal txs s := by
  refine ⟨?_, ?_, ?_⟩
  · intro hoff
    unfold rolloverEffect
    rw [if_neg]
    rintro ⟨hday, hmon⟩
    rcases hoff with h | h
    · omega
    · exact hmon h
  · intro hday hmon
    constructor
    · intro hposamt
      unfold rolloverEffect
      rw [if_pos ⟨hday, hmon⟩]
      dsimp only
      rw [prevPeriodUsed_spec, if_pos hposamt]
      simp
    · intro hnonpos
      unfold rolloverEffect
      rw [if_pos ⟨hday, hmon⟩]
      dsimp only
      rw [prevPeriodUsed_spec, if_neg (not_lt.mpr hnonpos)]
      simp
  · by_cases hc : 15 ≤ today.day ∧ s.lastRolloverMonth ≠ some today.monthIndex
    · have hstamp : (rolloverEffect true today goal txs s).lastRolloverMonth =
          some today.monthIndex := by
        unfold rolloverEffect
        rw [if_pos hc]
        dsimp only
        by_cases hamt : 0 < goal - prevPeriodUsed today txs
        · rw [if_pos hamt]
          simp
        · rw [if_neg hamt]
          simp
      conv_lhs => rw [rolloverEffect]
      rw [if_neg]
      rintro ⟨_, hne⟩
      exact hne hstamp
    · have hfix : rolloverEffect true today goal txs s = s := by
        unfold rolloverEffect
        rw [if_neg hc]
      rw [hfix, hfix]

theorem claim_C5_witness :
    rolloverEffect true ⟨24300, 20⟩ 100 [] ⟨3, 4, none, false⟩ =
      ⟨103, 4, some 24300, false⟩ := by
  have h := ((claim_C5_rollover ⟨24300, 20⟩ 100 [] ⟨3, 4, none, false⟩).2.1
      (by norm_num) (by simp)).1 (by simp [specPrevPeriodUsed])
  rw [h]
  simp [specPrevPeriodUsed]
  norm_num

/-- Claim C10: rollover atomicity. A failed spreadsheet write leaves the
initial balances and the last-rollover month unchanged, and whenever the
initial general balance changes, the write succeeded and the month stamp
was applied in the same update with exactly the unused budget added. -/
theorem claim_C10_rollover_atomicity (today : DateD) (goal : ℚ)
    (txs : List Transaction) (s : RolloverState) :
    ((rolloverEffect false today goal txs s).initialGeneral = s.initialGeneral ∧
     (rolloverEffect false today goal txs s).initialProvision =
       s.initialProvision ∧
     (rolloverEffect false today goal txs s).lastRolloverMonth =
       s.lastRolloverMonth) ∧
    (∀ writeOk : Bool,
      (rolloverEffect writeOk today goal txs s).initialGeneral ≠
        s.initialGeneral →
      writeOk = true ∧
      (rolloverEffect writeOk today goal txs s).lastRolloverMonth =
        some today.monthIndex ∧
      (rolloverEffect writeOk today goal txs s).initialGeneral =
        s.initialGeneral + (goal - prevPeriodUsed today txs)) := by
  constructor
  · unfold rolloverEffect
    by_cases hc : 15 ≤ today.day ∧ s.lastRolloverMonth ≠ some today.monthIndex
    · rw [if_pos hc]
      dsimp only
      by_cases hamt : 0 < goal - prevPeriodUsed today txs
      · rw [if_pos hamt]
        exact ⟨rfl, rfl, rfl⟩
      · rw [if_neg hamt]
        exact ⟨rfl, rfl, rfl⟩
    · rw [if_neg hc]
      exact ⟨rfl, rfl, rfl⟩
  · intro writeOk hchanged
    unfold rolloverEffect at hchanged ⊢
    by_cases hc : 15 ≤ today.day ∧ s.lastRolloverMonth ≠ some today.monthIndex
    · rw [if_pos hc] at hchanged ⊢
      dsimp only at hchanged ⊢
      by_cases hamt : 0 < goal - prevPeriodUsed today txs
      · rw [if_pos hamt] at hchanged ⊢
        cases writeOk with
        | false => exact absurd rfl hchanged
        | true => exact ⟨rfl, rfl, rfl⟩
      · rw [if_neg hamt] at hchanged ⊢
        cases writeOk with
        | false => exact absurd rfl hchanged
        | true => exact absurd rfl hchanged
    · rw [if_neg hc] at hchanged
      exact absurd rfl hchanged

theorem claim_C10_witness :
    (rolloverEffect false ⟨24300, 20⟩ 100 [] ⟨3, 4, none, false⟩).initialGeneral =
        3 ∧
      (rolloverEffect false ⟨24300, 20⟩ 100 []
          ⟨3, 4, none, false⟩).initialProvision = 4 ∧
      (rolloverEffect false ⟨24300, 20⟩ 100 []
          ⟨3, 4, none, false⟩).lastRolloverMonth = none :=
  (claim_C10_rollover_atomicity ⟨24300, 20⟩ 100 [] ⟨3, 4, none, false⟩).1

/-- Descending-date order used by every sort in both App variants
(sort comparator date(b) - date(a)): a precedes b when its date is at
least that of b. -/
def txGe (a b : Transaction) : Prop := DateD.le b.date a.date

instance : DecidableRel txGe := fun a b => by
  unfold txGe; infer_instance

lemma DateD.le_total (d₁ d₂ : DateD) : DateD.le d₁ d₂ ∨ DateD.le d₂ d₁ := by
  unfold DateD.le
  omega

lemma DateD.le_trans (d₁ d₂ d₃ : DateD) :
    DateD.le d₁ d₂ → DateD.le d₂ d₃ → DateD.le d₁ d₃ := by
  unfold DateD.le
  omega

instance : IsTotal Transaction txGe :=
  ⟨fun a b => DateD.le_total b.date a.date⟩

instance : IsTrans Transaction txGe :=
  ⟨fun a b c h₁ h₂ => DateD.le_trans c.date b.date a.date h₂ h₁⟩

/-- The stable descending-date sort applied after loading and after adding
a transaction in both variants. -/
def sortTxs (txs : List Transaction) : List Transaction :=
  List.insertionSort txGe txs

/-- The new-transaction form state (newTxData), with the amount given as
the result of parseFloat: none embeds NaN. -/
structure NewTxData where
  description : String
  amount : Option ℚ
  date : DateD
  type : TransactionType
  source : TransactionSource
  destination : TransactionSource
deriving DecidableEq, Repr

/-- Embedding of the JS String trim applied to the submitted description:
drop leading and trailing whitespace characters. -/
def jsTrim (s : String) : String :=
  ⟨((s.data.dropWhile Char.isWhitespace).reverse.dropWhile
      Char.isWhitespace).reverse⟩

/-- The transaction record built from a validated form submission: the
description is trimmed and the destination is kept only for transfers. -/
def mkTransaction (nid : String) (fd : NewTxData) (a : ℚ) : Transaction :=
  { id := nid, date := fd.date, description := jsTrim fd.description,
    amount := a, type := fd.type, source := fd.source,
    destination := if fd.type = .TRANSFER then some fd.destination else none }

/-- handleAddTransaction of src/App.tsx (lines 250-296), up to the
spreadsheet append (assumed successful): reject a blank description, a NaN
or non-positive amount, and a transfer whose source equals its destination;
otherwise append the new transaction and re-sort by descending date. -/
def SheetsApp.handleAddTransaction (nid : String) (fd : NewTxData)
    (txs : List Transaction) : List Transaction :=
  match fd.amount with
  | none => txs
  | some a =>
    if jsTrim fd.description = "" ∨ a ≤ 0 then txs
    else if fd.type = .TRANSFER ∧ fd.source = fd.destination then txs
    else sortTxs (txs ++ [mkTransaction nid fd a])

/-- handleAddTransaction of the local-storage App variant (part_001 lines
86-116): reject a blank description and a NaN or non-positive amount (there
is no transfer source-equals-destination check in this variant); otherwise
prepend the new transaction and re-sort by descending date. -/
def LocalApp.handleAddTransaction (nid : String) (fd : NewTxData)
    (txs : List Transaction) : List Transaction :=
  match fd.amount with
  | none => txs
  | some a =>
    if jsTrim fd.description = "" ∨ a ≤ 0 then txs
    else sortTxs (mkTransaction nid fd a :: txs)

/-- handleDeleteTransaction in both variants: keep the transactions whose
id differs from the deleted one. -/
def handleDeleteTransaction (tid : String) (txs : List Transaction) :
    List Transaction :=
  txs.filter fun tx => decide (tx.id ≠ tid)

/-- Concrete form refuting claim C3: a valid-looking TRANSFER whose source
equals its destination. -/
def c3CounterForm : NewTxData :=
  { description := "internal move", amount := some 5, date := ⟨24300, 3⟩,
    type := .TRANSFER, source := .GENERAL, destination := .GENERAL }

/-- Claim C3 counterexample: in the local-storage variant a TRANSFER whose
source equals its destination is not rejected; submitting one against an
empty list adds a transaction, where the claim says the list is left
unchanged. -/
theorem claim_C3_counterexample :
    LocalApp.handleAddTransaction "txn-1" c3CounterForm [] ≠ [] := by
  decide

/-- Claim C3, amended: both variants reject a NaN amount, a non-positive
amount, and a blank description, leaving the list unchanged, and otherwise
add exactly one new transaction with the submitted amount, type, source and
(for transfers) destination; but only the Sheets variant rejects a TRANSFER
whose source equals its destination - the local-storage variant adds such a
transfer (the claim asserted the check for both variants, refuted by the
counterexample). -/
theorem claim_C3_amended (nid : String) (fd : NewTxData)
    (txs : List Transaction) :
    (fd.amount = none →
      SheetsApp.handleAddTransaction nid fd txs = txs ∧
      LocalApp.handleAddTransaction nid fd txs = txs) ∧
    (∀ a : ℚ, fd.amount = some a →
      ((jsTrim fd.description = "" ∨ a ≤ 0) →
        SheetsApp.handleAddTransaction nid fd txs = txs ∧
        LocalApp.handleAddTransaction nid fd txs = txs) ∧
      (jsTrim fd.description ≠ "" → 0 < a →
        (fd.type = .TRANSFER → fd.source = fd.destination →
          SheetsApp.handleAddTransaction nid fd txs = txs ∧
          (LocalApp.handleAddTransaction nid fd txs).Perm
            (mkTransaction nid fd a :: txs)) ∧
        (¬(fd.type = .TRANSFER ∧ fd.source = fd.destination) →
          (SheetsApp.handleAddTransaction nid fd txs).Perm
            (mkTransaction nid fd a :: txs) ∧
          (LocalApp.handleAddTransaction nid fd txs).Perm
            (mkTransaction nid fd a :: txs)))) := by
  constructor
  · intro hnone
    unfold SheetsApp.handleAddTransaction LocalApp.handleAddTransaction
    rw [hnone]
    exact ⟨rfl, rfl⟩
  · intro a hsome
    constructor
    · intro hbad
      unfold SheetsApp.handleAddTransaction LocalApp.handleAddTransaction
      rw [hsome]
      dsimp only
      rw [if_pos hbad, if_pos hbad]
      exact ⟨rfl, rfl⟩
    · intro hdesc hapos
      have hnotbad : ¬(jsTrim fd.description = "" ∨ a ≤ 0) := by
        push_neg
        exact ⟨hdesc, hapos⟩
      have hlocal : (LocalApp.handleAddTransaction nid fd txs).Perm
          (mkTransaction nid fd a :: txs) := by
        unfold LocalApp.handleAddTransaction
        rw [hsome]
        dsimp only
        rw [if_neg hnotbad]
        exact List.perm_insertionSort txGe _
      constructor
      · intro hty hsd
        refine ⟨?_, hlocal⟩
        unfold SheetsApp.handleAddTransaction
        rw [hsome]
        dsimp only
        rw [if_neg hnotbad, if_pos ⟨hty, hsd⟩]
      · intro hnotsd
        refine ⟨?_, hlocal⟩
        unfold SheetsApp.handleAddTransaction
        rw [hsome]
        dsimp only
        rw [if_neg hnotbad, if_neg hnotsd]
        exact (List.perm_insertionSort txGe _).trans
          (List.perm_append_singleton _ _)

/-- Concrete valid expense form for the claim C3 witness. -/
def c3WitnessForm : NewTxData :=
  { description := "lunch", amount := some 7, date := ⟨24300, 9⟩,
    type := .EXPENSE, source := .GENERAL, destination := .GENERAL }

theorem claim_C3_witness :
    (c3WitnessForm.amount = some 7 ∧ jsTrim c3WitnessForm.description ≠ "" ∧
      (0:ℚ) < 7 ∧ ¬(c3WitnessForm.type = .TRANSFER ∧
        c3WitnessForm.source = c3WitnessForm.destination)) ∧
    (SheetsApp.handleAddTransaction "txn-9" c3WitnessForm []).Perm
      [mkTransaction "txn-9" c3WitnessForm 7] :=
  ⟨⟨rfl, by decide, by norm_num, by decide⟩,
    ((((claim_C3_amended "txn-9" c3WitnessForm []).2 7 rfl).2
      (by decide) (by norm_num)).2 (by decide)).1⟩

/-- Claim C9: sorted-order invariant. The descending-date sort applied
after loading yields a sorted list; adding a transaction through either
variant of handleAddTransaction keeps the list sorted (a successful add
re-sorts, a rejected one leaves the sorted input unchanged); and deleting
keeps the remaining transactions sorted. -/
theorem claim_C9_sorted_invariant (txs : List Transaction) :
    List.Sorted txGe (sortTxs txs) ∧
    (∀ (nid : String) (fd : NewTxData), List.Sorted txGe txs →
      List.Sorted txGe (SheetsApp.handleAddTransaction nid fd txs) ∧
      List.Sorted txGe (LocalApp.handleAddTransaction nid fd txs)) ∧
    (∀ tid : String, List.Sorted txGe txs →
      List.Sorted txGe (handleDeleteTransaction tid txs)) := by
  refine ⟨List.sorted_insertionSort txGe txs, ?_, ?_⟩
  · intro nid fd hs
    constructor
    · unfold SheetsApp.handleAddTransaction
      rcases fd.amount with _ | a
      · exact hs
      · dsimp only
        by_cases h1 : jsTrim fd.description = "" ∨ a ≤ 0
        · rw [if_pos h1]; exact hs
        · rw [if_neg h1]
          by_cases h2 : fd.type = .TRANSFER ∧ fd.source = fd.destination
          · rw [if_pos h2]; exact hs
          · rw [if_neg h2]; exact List.sorted_insertionSort txGe _
    · unfold LocalApp.handleAddTransaction
      rcases fd.amount with _ | a
      · exact hs
      · dsimp only
        by_cases h1 : jsTrim fd.description = "" ∨ a ≤ 0
        · rw [if_pos h1]; exact hs
        · rw [if_neg h1]; exact List.sorted_insertionSort txGe _
  · intro tid hs
    exact List.Pairwise.filter _ hs

/-- Concrete descending-date sorted list for the claim C9 witness. -/
def c9WitnessSorted : List Transaction :=
  [{ id := "w91", date := ⟨24300, 9⟩, description := "later", amount := 4,
     type := .EXPENSE, source := .GENERAL, destination := none },
   { id := "w92", date := ⟨24300, 2⟩, description := "earlier", amount := 6,
     type := .INCOME, source := .GENERAL, destination := none }]

theorem claim_C9_witness :
    List.Sorted txGe c9WitnessSorted ∧
    List.Sorted txGe
      (SheetsApp.handleAddTransaction "txn-5" c3WitnessForm c9WitnessSorted) ∧
    List.Sorted txGe (handleDeleteTransaction "w91" c9WitnessSorted) :=
  ⟨by decide,
    ((claim_C9_sorted_invariant c9WitnessSorted).2.1 "txn-5" c3WitnessForm
      (by decide)).1,
    (claim_C9_sorted_invariant c9WitnessSorted).2.2 "w91" (by decide)⟩

section AssocSummary

variable {V : Type}

/-- Lookup in an insertion-ordered association list keyed by integers: the
embedding of reading a property of the JS summary object. -/
def lookupA (k : Int) : List (Int × V) → Option V
  | [] => none
  | e :: s => if e.1 = k then some e.2 else lookupA k s

/-- Update the value stored at a key (the += statements of the grouping
loops); entries with other keys are untouched. -/
def bumpA (k : Int) (f : V → V) (s : List (Int × V)) : List (Int × V) :=
  s.map fun e => if e.1 = k then (e.1, f e.2) else e

/-- Create the entry for a key if it is absent, appending it in insertion
order (the if-absent initializer of the grouping loops). -/
def ensureA (k : Int) (v0 : V) (s : List (Int × V)) : List (Int × V) :=
  if (lookupA k s).isSome then s else s ++ [(k, v0)]

lemma lookupA_eq_none_iff (k : Int) (s : List (Int × V)) :
    lookupA k s = none ↔ k ∉ s.map Prod.fst := by
  induction s with
  | nil => simp [lookupA]
  | cons e rest ih =>
    by_cases h : e.1 = k
    · simp [lookupA, h]
    · have hne : k ≠ e.1 := fun hh => h hh.symm
      simp [lookupA, h, ih, hne]

lemma lookupA_append (k : Int) (s t : List (Int × V)) :
    lookupA k (s ++ t) =
      match lookupA k s with
      | some v => some v
      | none => lookupA k t := by
  induction s with
  | nil => simp [lookupA]
  | cons e rest ih =>
    by_cases h : e.1 = k <;> simp [lookupA, h, ih]

lemma bumpA_cons (k : Int) (f : V → V) (e : Int × V) (rest : List (Int × V)) :
    bumpA k f (e :: rest) =
      (if e.1 = k then (e.1, f e.2) else e) :: bumpA k f rest := rfl

lemma lookupA_bumpA (k m : Int) (f : V → V) (s : List (Int × V)) :
    lookupA m (bumpA k f s) =
      if m = k then (lookupA m s).map f else lookupA m s := by
  induction s with
  | nil => simp [lookupA, bumpA]
  | cons e rest ih =>
    rw [bumpA_cons]
    by_cases h : e.1 = k
    · rw [if_pos h]
      by_cases h2 : e.1 = m
      · have hmk : m = k := h2.symm.trans h
        simp [lookupA, h2, hmk]
      · have hlc : lookupA m (e :: rest) = lookupA m rest := by
          simp [lookupA, h2]
        have hlc2 : lookupA m ((e.1, f e.2) :: bumpA k f rest) =
            lookupA m (bumpA k f rest) := by
          simp [lookupA, h2]
        rw [hlc2, hlc, ih]
    · rw [if_neg h]
      by_cases h2 : e.1 = m
      · have hmk : ¬m = k := fun hh => h (h2.trans hh)
        simp [lookupA, h2, hmk]
      · have hlc : lookupA m (e :: rest) = lookupA m rest := by
          simp [lookupA, h2]
        have hlc2 : lookupA m (e :: bumpA k f rest) =
            lookupA m (bumpA k f rest) := by
          simp [lookupA, h2]
        rw [hlc2, hlc, ih]

lemma lookupA_ensureA (k m : Int) (v0 : V) (s : List (Int × V)) :
    lookupA m (ensureA k v0 s) =
      if m = k then some ((lookupA k s).getD v0) else lookupA m s := by
  unfold ensureA
  by_cases hpres : (lookupA k s).isSome
  · rw [if_pos hpres]
    by_cases hmk : m = k
    · subst hmk
      obtain ⟨v, hv⟩ := Option.isSome_iff_exists.mp hpres
      simp [hv]
    · rw [if_neg hmk]
  · rw [if_neg hpres]
    have hnone : lookupA k s = none := Option.not_isSome_iff_eq_none.mp hpres
    rw [lookupA_append]
    by_cases hmk : m = k
    · subst hmk
      simp [hnone, lookupA]
    · rw [if_neg hmk]
      cases hls : lookupA m s with
      | some v => simp
      | none => simp [lookupA, Ne.symm hmk]

lemma keysA_bumpA (k : Int) (f : V → V) (s : List (Int × V)) :
    (bumpA k f s).map Prod.fst = s.map Prod.fst := by
  unfold bumpA
  rw [List.map_map]
  apply List.map_congr_left
  intro e _
  by_cases h : e.1 = k <;> simp [h]

lemma nodup_keysA_ensureA (k : Int) (v0 : V) (s : List (Int × V))
    (h : (s.map Prod.fst).Nodup) :
    ((ensureA k v0 s).map Prod.fst).Nodup := by
  unfold ensureA
  by_cases hpres : (lookupA k s).isSome
  · rw [if_pos hpres]
    exact h
  · rw [if_neg hpres]
    have hnone : lookupA k s = none := Option.not_isSome_iff_eq_none.mp hpres
    have hk : k ∉ s.map Prod.fst := (lookupA_eq_none_iff k s).mp hnone
    rw [List.map_append]
    refine List.Nodup.append h (List.nodup_singleton k) ?_
    intro a ha hb
    simp at hb
    exact hk (hb ▸ ha)

lemma nodup_keysA_bumpA (k : Int) (f : V → V) (s : List (Int × V))
    (h : (s.map Prod.fst).Nodup) :
    ((bumpA k f s).map Prod.fst).Nodup := by
  rw [keysA_bumpA]
  exact h

end AssocSummary

/-- Monthly chart entry (MonthlyData of types.ts): the chart label is the
two-digit month part of the "YYYY-MM" key, embedded as the month number. -/
structure MonthlyData where
  month : Int
  income : ℚ
  expense : ℚ
deriving DecidableEq, Repr

/-- Daily chart entry (DailyData of types.ts). -/
structure DailyData where
  day : Int
  expense : ℚ
deriving DecidableEq, Repr

/-- The "MM" label of a month key: comparing the zero-padded two-digit
labels with localeCompare equals comparing these numbers. -/
def monthLabel (mi : Int) : Int := mi.emod 12 + 1

/-- Sort order of the monthly chart entries (localeCompare on labels). -/
def monthlyEntryLe (a b : MonthlyData) : Prop := a.month ≤ b.month

/-- Sort order of the daily chart entries (localeCompare on day labels). -/
def dailyEntryLe (a b : DailyData) : Prop := a.day ≤ b.day

instance : DecidableRel monthlyEntryLe := fun a b => by
  unfold monthlyEntryLe; infer_instance

instance : DecidableRel dailyEntryLe := fun a b => by
  unfold dailyEntryLe; infer_instance

/-- One step of the grouping loop of processMonthlyData (identical in both
variants): ensure the month entry exists, then add the amount to its income
or expense component according to the transaction type. -/
def monthlyUpd (s : List (Int × (ℚ × ℚ))) (tx : Transaction) :
    List (Int × (ℚ × ℚ)) :=
  let s₁ := ensureA tx.date.monthIndex (0, 0) s
  match tx.type with
  | .INCOME => bumpA tx.date.monthIndex (fun v => (v.1 + tx.amount, v.2)) s₁
  | .EXPENSE => bumpA tx.date.monthIndex (fun v => (v.1, v.2 + tx.amount)) s₁
  | .TRANSFER => s₁

/-- The monthlySummary object built by processMonthlyData: keys are the
"YYYY-MM" prefixes (as month indices), values are (income, expense) sums. -/
def processMonthlySummary (txs : List Transaction) : List (Int × (ℚ × ℚ)) :=
  txs.foldl monthlyUpd []

/-- processMonthlyData: map the summary to chart entries labelled by the
month part and sort by label. -/
def processMonthlyData (txs : List Transaction) : List MonthlyData :=
  List.insertionSort monthlyEntryLe
    ((processMonthlySummary txs).map fun e =>
      ⟨monthLabel e.1, e.2.1, e.2.2⟩)

/-- One step of the grouping loop of processDailyData: ensure the day entry
exists and add the expense amount. -/
def dailyUpd (s : List (Int × ℚ)) (tx : Transaction) : List (Int × ℚ) :=
  bumpA tx.date.day (fun v => v + tx.amount) (ensureA tx.date.day 0 s)

/-- The dailySummary object built by processDailyData: the transactions of
the selected month of type EXPENSE, grouped by day with summed amounts. -/
def processDailySummary (selMonth : Int) (txs : List Transaction) :
    List (Int × ℚ) :=
  (txs.filter fun tx => decide (tx.date.monthIndex = selMonth ∧
    tx.type = TransactionType.EXPENSE)).foldl dailyUpd []

/-- processDailyData: map the day summary to chart entries and sort by day
label. -/
def processDailyData (selMonth : Int) (txs : List Transaction) :
    List DailyData :=
  List.insertionSort dailyEntryLe
    ((processDailySummary selMonth txs).map fun e => ⟨e.1, e.2⟩)

/-- The sum of all INCOME amounts dated in a given month, as the
specification words it. -/
def monthIncome (m : Int) (txs : List Transaction) : ℚ :=
  ((txs.filter fun tx => decide (tx.date.monthIndex = m ∧
    tx.type = TransactionType.INCOME)).map Transaction.amount).sum

/-- The sum of all EXPENSE amounts dated in a given month, as the
specification words it. -/
def monthExpense (m : Int) (txs : List Transaction) : ℚ :=
  ((txs.filter fun tx => decide (tx.date.monthIndex = m ∧
    tx.type = TransactionType.EXPENSE)).map Transaction.amount).sum

/-- The sum of all EXPENSE amounts on a given day of the selected month, as
the specification words it. -/
def dayExpense (selMonth d : Int) (txs : List Transaction) : ℚ :=
  ((txs.filter fun tx => decide (tx.date.monthIndex = selMonth ∧
    tx.date.day = d ∧ tx.type = TransactionType.EXPENSE)).map
      Transaction.amount).sum

lemma monthIncome_cons (m : Int) (tx : Transaction) (rest : List Transaction) :
    monthIncome m (tx :: rest) =
      (if tx.date.monthIndex = m ∧ tx.type = TransactionType.INCOME
        then tx.amount else 0) + monthIncome m rest := by
  unfold monthIncome
  by_cases h : tx.date.monthIndex = m ∧ tx.type = TransactionType.INCOME <;>
    simp [List.filter_cons, h]

lemma monthExpense_cons (m : Int) (tx : Transaction) (rest : List Transaction) :
    monthExpense m (tx :: rest) =
      (if tx.date.monthIndex = m ∧ tx.type = TransactionType.EXPENSE
        then tx.amount else 0) + monthExpense m rest := by
  unfold monthExpense
  by_cases h : tx.date.monthIndex = m ∧ tx.type = TransactionType.EXPENSE <;>
    simp [List.filter_cons, h]

lemma lookupA_monthlyUpd (m : Int) (s : List (Int × (ℚ × ℚ)))
    (tx : Transaction) :
    lookupA m (monthlyUpd s tx) =
      if m = tx.date.monthIndex then
        some (match tx.type with
          | .INCOME => (((lookupA m s).getD (0, 0)).1 + tx.amount,
              ((lookupA m s).getD (0, 0)).2)
          | .EXPENSE => (((lookupA m s).getD (0, 0)).1,
              ((lookupA m s).getD (0, 0)).2 + tx.amount)
          | .TRANSFER => (lookupA m s).getD (0, 0))
      else lookupA m s := by
  obtain ⟨tid, tdate, tdesc, ta, tty, tsrc, tdst⟩ := tx
  unfold monthlyUpd
  dsimp only
  cases tty <;> dsimp only
  · rw [lookupA_bumpA, lookupA_ensureA]
    by_cases hm : m = tdate.monthIndex <;> simp [hm]
  · rw [lookupA_bumpA, lookupA_ensureA]
    by_cases hm : m = tdate.monthIndex <;> simp [hm]
  · rw [lookupA_ensureA]
    by_cases hm : m = tdate.monthIndex <;> simp [hm]

lemma monthly_fold_lookup (txs : List Transaction) :
    ∀ (s : List (Int × (ℚ × ℚ))) (m : Int),
    lookupA m (txs.foldl monthlyUpd s) =
      match lookupA m s with
      | some v => some (v.1 + monthIncome m txs, v.2 + monthExpense m txs)
      | none =>
        if m ∈ txs.map fun tx => tx.date.monthIndex
        then some (monthIncome m txs, monthExpense m txs) else none := by
  induction txs with
  | nil =>
    intro s m
    cases hv : lookupA m s <;> simp [hv, monthIncome, monthExpense]
  | cons tx rest ih =>
    intro s m
    obtain ⟨tid, tdate, tdesc, ta, tty, tsrc, tdst⟩ := tx
    rw [List.foldl_cons, ih, lookupA_monthlyUpd]
    dsimp only
    by_cases hm : m = tdate.monthIndex
    · rw [if_pos hm]
      cases hv : lookupA m s with
      | some v =>
        cases tty <;>
          simp [hv, monthIncome_cons, monthExpense_cons, hm.symm,
            Prod.mk.injEq] <;>
          ring
      | none =>
        cases tty <;>
          simp [hv, monthIncome_cons, monthExpense_cons, hm.symm,
            Prod.mk.injEq]
    · rw [if_neg hm]
      have hne : tdate.monthIndex ≠ m := fun hh => hm hh.symm
      cases hv : lookupA m s with
      | some v => simp [hv, monthIncome_cons, monthExpense_cons, hne]
      | none => simp [hv, monthIncome_cons, monthExpense_cons, hne, hm]

lemma monthly_fold_nodup (txs : List Transaction) :
    ∀ s : List (Int × (ℚ × ℚ)), (s.map Prod.fst).Nodup →
      (((txs.foldl monthlyUpd s).map Prod.fst)).Nodup := by
  induction txs with
  | nil => exact fun s h => h
  | cons tx rest ih =>
    intro s h
    rw [List.foldl_cons]
    apply ih
    obtain ⟨tid, tdate, tdesc, ta, tty, tsrc, tdst⟩ := tx
    unfold monthlyUpd
    dsimp only
    cases tty <;> dsimp only
    · exact nodup_keysA_bumpA _ _ _ (nodup_keysA_ensureA _ _ _ h)
    · exact nodup_keysA_bumpA _ _ _ (nodup_keysA_ensureA _ _ _ h)
    · exact nodup_keysA_ensureA _ _ _ h

/-- The sum of amounts on a given day within an already filtered list. -/
def sumDay (d : Int) (l : List Transaction) : ℚ :=
  ((l.filter fun tx => decide (tx.date.day = d)).map Transaction.amount).sum

lemma sumDay_cons (d : Int) (tx : Transaction) (rest : List Transaction) :
    sumDay d (tx :: rest) =
      (if tx.date.day = d then tx.amount else 0) + sumDay d rest := by
  unfold sumDay
  by_cases h : tx.date.day = d <;> simp [List.filter_cons, h]

lemma lookupA_dailyUpd (d : Int) (s : List (Int × ℚ)) (tx : Transaction) :
    lookupA d (dailyUpd s tx) =
      if d = tx.date.day
      then some ((lookupA d s).getD 0 + tx.amount)
      else lookupA d s := by
  unfold dailyUpd
  rw [lookupA_bumpA, lookupA_ensureA]
  by_cases hd : d = tx.date.day <;> simp [hd]

lemma daily_fold_lookup (l : List Transaction) :
    ∀ (s : List (Int × ℚ)) (d : Int),
    lookupA d (l.foldl dailyUpd s) =
      match lookupA d s with
      | some v => some (v + sumDay d l)
      | none =>
        if d ∈ l.map fun tx => tx.date.day
        then some (sumDay d l) else none := by
  induction l with
  | nil =>
    intro s d
    cases hv : lookupA d s <;> simp [hv, sumDay]
  | cons tx rest ih =>
    intro s d
    rw [List.foldl_cons, ih, lookupA_dailyUpd]
    by_cases hd : d = tx.date.day
    · rw [if_pos hd]
      cases hv : lookupA d s with
      | some v =>
        simp [hv, sumDay_cons, hd.symm]
        ring
      | none =>
        simp [hv, sumDay_cons, hd.symm]
    · rw [if_neg hd]
      have hne : tx.date.day ≠ d := fun hh => hd hh.symm
      cases hv : lookupA d s with
      | some v => simp [hv, sumDay_cons, hne]
      | none => simp [hv, sumDay_cons, hne, hd]

lemma daily_fold_nodup (l : List Transaction) :
    ∀ s : List (Int × ℚ), (s.map Prod.fst).Nodup →
      ((l.foldl dailyUpd s).map Prod.fst).Nodup := by
  induction l with
  | nil => exact fun s h => h
  | cons tx rest ih =>
    intro s h
    rw [List.foldl_cons]
    exact ih _ (nodup_keysA_bumpA _ _ _ (nodup_keysA_ensureA _ _ _ h))

lemma dayExpense_eq_sumDay (selMonth d : Int) (txs : List Transaction) :
    dayExpense selMonth d txs =
      sumDay d (txs.filter fun tx => decide (tx.date.monthIndex = selMonth ∧
        tx.type = TransactionType.EXPENSE)) := by
  unfold dayExpense sumDay
  rw [filter_filter_decide (fun tx => tx.date.monthIndex = selMonth ∧
      tx.type = TransactionType.EXPENSE) (fun tx => tx.date.day = d) txs]
  have hsame : (txs.filter fun tx => decide (tx.date.monthIndex = selMonth ∧
      tx.date.day = d ∧ tx.type = TransactionType.EXPENSE)) =
      txs.filter fun tx => decide (tx.date.day = d ∧
        (tx.date.monthIndex = selMonth ∧ tx.type = TransactionType.EXPENSE)) := by
    apply List.filter_congr
    intro tx _
    simp only [decide_eq_decide]
    tauto
  rw [hsame]

/-- Claim C8: chart aggregation. The monthly summary has exactly one entry
per distinct month prefix occurring in the list, holding the sum of INCOME
amounts and the sum of EXPENSE amounts of that month (TRANSFER transactions
contribute to neither), and processMonthlyData is its relabelled, re-sorted
entry list; the daily summary of a selected month has exactly one entry per
day on which an EXPENSE occurs, holding the sum of EXPENSE amounts of that
day (INCOME and TRANSFER contribute nothing), and processDailyData is its
entry list. -/
theorem claim_C8_chart_aggregation (txs : List Transaction) (selMonth : Int) :
    (((processMonthlySummary txs).map Prod.fst).Nodup ∧
      (∀ m : Int, lookupA m (processMonthlySummary txs) =
        if m ∈ txs.map fun tx => tx.date.monthIndex
        then some (monthIncome m txs, monthExpense m txs) else none) ∧
      (processMonthlyData txs).Perm
        ((processMonthlySummary txs).map fun e =>
          ⟨monthLabel e.1, e.2.1, e.2.2⟩)) ∧
    (((processDailySummary selMonth txs).map Prod.fst).Nodup ∧
      (∀ d : Int, lookupA d (processDailySummary selMonth txs) =
        if d ∈ (txs.filter fun tx => decide (tx.date.monthIndex = selMonth ∧
            tx.type = TransactionType.EXPENSE)).map fun tx => tx.date.day
        then some (dayExpense selMonth d txs) else none) ∧
      (processDailyData selMonth txs).Perm
        ((processDailySummary selMonth txs).map fun e => ⟨e.1, e.2⟩)) := by
  refine ⟨⟨?_, ?_, ?_⟩, ?_, ?_, ?_⟩
  · exact monthly_fold_nodup txs [] (by simp)
  · intro m
    rw [processMonthlySummary, monthly_fold_lookup txs [] m]
    simp [lookupA]
  · exact List.perm_insertionSort _ _
  · exact daily_fold_nodup _ [] (by simp)
  · intro d
    rw [processDailySummary, daily_fold_lookup _ [] d, dayExpense_eq_sumDay]
    simp [lookupA]
  · exact List.perm_insertionSort _ _

end FinanceTracker
